import Mathlib

/-!
Verification development for the schema-driven codec generator in
`src/codegen/utils.ts` of the `deno-amqp` repository.

The generator is a set of pure functions over an in-memory protocol
schema.  Some of them (the resolvers and name canonicalizers) compute
values directly; the `print*` family emits TypeScript source text by
string templating.  For the emitted encode/decode functions we give a
shallow-embedded *semantics*: the generated function bodies are fully
determined by the schema, so each one is translated into a Lean function
over an abstract wire format.  The low-level binary field codec
(`enc.encodeFields`, `enc.decodeFields`, ...) is not part of this
repository's `src/` tree — the spec declares it an external
collaborator — so it is modelled from the spec's contract (§6) as a
token stream rather than a byte stream.
-/

deriving instance DecidableEq for Except

namespace Amqp

/-! ## Schema model (utils.ts lines 1–33) -/

/-- Default values carried by `ArgumentDefinition["default-value"]`, which
the source types as `string | number | boolean | object`.  The only object
default the schema format uses is the empty object `{}`. -/
inductive DefaultValue where
  | str (s : String)
  | num (n : Int)
  | bool (b : Bool)
  | obj
deriving DecidableEq, Repr

/-- `ArgumentDefinition` (utils.ts lines 28–33).  The `default-value`
field has no `?` in the source interface but every use site guards with
`!== undefined`, so it is an `Option` here. -/
structure ArgumentDefinition where
  type : Option String
  domain : Option String
  name : String
  defaultValue : Option DefaultValue
deriving DecidableEq, Repr

/-- `PropertyDefinition` (utils.ts lines 23–26). -/
structure PropertyDefinition where
  type : String
  name : String
deriving DecidableEq, Repr

/-- `MethodDefinition` (utils.ts lines 14–21). -/
structure MethodDefinition where
  id : Nat
  arguments : List ArgumentDefinition
  synchronous : Bool
  response : Option String
  name : String
  content : Bool
deriving DecidableEq, Repr

/-- `ClassDefinition` (utils.ts lines 7–12); `properties` is optional. -/
structure ClassDefinition where
  id : Nat
  methods : List MethodDefinition
  name : String
  properties : Option (List PropertyDefinition)
deriving DecidableEq, Repr

/-- One entry of `Spec.constants` (utils.ts line 4); the source field
`class` is a Lean keyword, rendered here as `owner`. -/
structure ConstantDefinition where
  name : String
  value : Int
  owner : String
deriving DecidableEq, Repr

/-- `Spec` (utils.ts lines 1–5).  The source declares `domains` with the
type `[string, string]`, but every use (`spec.domains.find(d => d[0] ===
...)`) treats it as an array of (name, primitive-type) pairs, which is
what the schema document actually contains; it is a list of pairs here. -/
structure Spec where
  classes : List ClassDefinition
  domains : List (String × String)
  constants : List ConstantDefinition
deriving DecidableEq, Repr

/-! ## Generation-time failures (spec.md §7)

The source throws plain `Error`s; the spec names the three
generation-time failures `UnresolvedType`, `UnknownDomain` and
`UnknownPrimitiveType`.  We keep them apart in an inductive. -/

inductive GenError where
  /-- utils.ts line 43: `throw new Error(`Cannot determine type ${arg}`)`. -/
  | unresolvedType
  /-- utils.ts line 41: `domain![1]` — when the `find` on line 40 misses,
  `domain` is `undefined` and the element access throws at runtime. -/
  | unknownDomain (d : String)
  /-- utils.ts line 82: `throw new Error(`Unknown type '${type}'`)`. -/
  | unknownPrimitiveType (t : String)
deriving DecidableEq, Repr

/-- Runtime message text attached to each generation-time failure, used
when a generated-code semantics has to surface one as a plain error. -/
def GenError.message : GenError → String
  | .unresolvedType => "Cannot determine type"
  | .unknownDomain d => "unknown domain " ++ d
  | .unknownPrimitiveType t => "Unknown type '" ++ t ++ "'"

/-- Effectful map: a JavaScript `Array.prototype.map` whose callback can
throw aborts the whole map, which is exactly `mapM` into `Except`.
Spelled out by structural recursion so proofs unfold it directly. -/
def mapThrow {α β ε : Type} (f : α → Except ε β) : List α → Except ε (List β)
  | [] => .ok []
  | a :: l =>
    match f a with
    | .error e => .error e
    | .ok b =>
      match mapThrow f l with
      | .error e => .error e
      | .ok bs => .ok (b :: bs)

/-! ## TypeResolver (utils.ts lines 35–44) -/

/-- `resolveType(spec, arg)`: an explicit `type` wins; otherwise the
`domain` is looked up in `spec.domains` (first match, as `Array.find`);
a missing domain entry crashes (`domain![1]`), and an argument with
neither field throws. -/
def resolveType (spec : Spec) (arg : ArgumentDefinition) : Except GenError String :=
  match arg.type with
  | some t => .ok t
  | none =>
    match arg.domain with
    | some d =>
      match spec.domains.find? (fun p => p.1 == d) with
      | some p => .ok p.2
      | none => .error (GenError.unknownDomain d)
    | none => .error GenError.unresolvedType

/-! ## NameCanonicalizer (utils.ts lines 46–62 and 86–88) -/

/-- `capitalize(word)` (lines 46–50): upper-case the first character,
keep the rest.  `charAt(0).toUpperCase()` on the lowercase ASCII
identifiers in scope is `Char.toUpper`. -/
def capitalize (word : String) : String :=
  match word.data with
  | [] => ""
  | c :: cs => String.mk (Char.toUpper c :: cs)

/-- Character-level splitter for `name.split(/[-\.]/g)`: the regular
expression matches one hyphen or one dot, so the split cuts at every
such character; consecutive or leading delimiters yield empty segments
and the empty string splits to `[[]]`, exactly as in JavaScript. -/
def splitOnDelims : List Char → List (List Char)
  | [] => [[]]
  | c :: rest =>
    if c = '-' ∨ c = '.' then
      [] :: splitOnDelims rest
    else
      match splitOnDelims rest with
      | [] => [[c]]
      | s :: ss => (c :: s) :: ss

/-- `camelCase(name)` (lines 52–55): first segment unchanged, every
later segment capitalized, concatenated. -/
def camelCase (name : String) : String :=
  match (splitOnDelims name.data).map String.mk with
  | [] => ""
  | first :: rest => first ++ String.join (rest.map capitalize)

/-- `pascalCase(name)` (lines 57–62): every segment capitalized,
concatenated. -/
def pascalCase (name : String) : String :=
  String.join (((splitOnDelims name.data).map String.mk).map capitalize)

/-- `resolveTypescriptType(type)` (lines 64–84): the closed primitive
set mapped to TypeScript storage types; anything else throws
`Unknown type '...'`. -/
def resolveTypescriptType (t : String) : Except GenError String :=
  match t with
  | "longlong" => .ok "bigint"
  | "long" | "short" | "octet" => .ok "number"
  | "bit" => .ok "boolean"
  | "shortstr" | "longstr" => .ok "string"
  | "table" => .ok "Record<string, unknown>"
  | "timestamp" => .ok "bigint"
  | _ => .error (GenError.unknownPrimitiveType t)

/-- `constantName(name)` (lines 86–88): a global replace of `-` by `_`
followed by `toUpperCase()`.  The replace pattern is the single
character `-`, so the replace is a character-wise substitution; the
subsequent `toUpperCase` is character-wise on these ASCII identifiers.
Note that dots are *not* replaced. -/
def constantName (name : String) : String :=
  String.mk ((name.data.map (fun c => if c = '-' then '_' else c)).map Char.toUpper)

/-! ## Runtime values of the generated code

The generated functions traffic in TypeScript runtime values: `bigint`,
`number`, `boolean`, `string` and `Record<string, unknown>` tables.
Table entries are abstracted to string pairs; no claim inspects them. -/

/-- A runtime value handled by the generated encode/decode functions. -/
inductive FieldValue where
  | vBigint (n : Int)
  | vNumber (n : Int)
  | vBool (b : Bool)
  | vString (s : String)
  | vTable (entries : List (String × String))
deriving DecidableEq, Repr

/-! ## Default-value literals (utils.ts lines 179–191) -/

/-- Escaping performed by `JSON.stringify` on the characters occurring in
schema default strings (quote and backslash; schema defaults contain no
control characters). -/
def jsonEscapeChar (c : Char) : List Char :=
  if c = '"' then ['\\', '"'] else if c = '\\' then ['\\', '\\'] else [c]

/-- `JSON.stringify` on a schema default value, as interpolated by
`getDefaultValue` and by the `/** Default ... */` comments. -/
def jsonStringify : DefaultValue → String
  | .str s => "\"" ++ String.mk (s.data.map jsonEscapeChar).flatten ++ "\""
  | .num n => toString n
  | .bool true => "true"
  | .bool false => "false"
  | .obj => "\x7b\x7d"

/-- Runtime value of the default literal emitted by `getDefaultValue`
(utils.ts lines 179–191): for a `bigint`-typed argument the literal is
`BigInt(JSON.stringify(default))`, whose evaluation converts a number or
boolean and parses a decimal string (anything else throws); for every
other storage type the literal is `JSON.stringify(default)` itself, which
evaluates back to the default value. -/
def defaultAsFieldValue (tsType : String) (d : DefaultValue) : Except String FieldValue :=
  if tsType = "bigint" then
    match d with
    | .num n => .ok (.vBigint n)
    | .bool b => .ok (.vBigint (if b then 1 else 0))
    | .str s =>
      match s.toInt? with
      | some n => .ok (.vBigint n)
      | none => .error ("Cannot convert " ++ s ++ " to a BigInt")
    | .obj => .error "Cannot convert an object to a BigInt"
  else
    match d with
    | .num n => .ok (.vNumber n)
    | .str s => .ok (.vString s)
    | .bool b => .ok (.vBool b)
    | .obj => .ok (.vTable [])

/-! ## Interface emitters (utils.ts lines 90–138)

The `print*Interface` functions emit TypeScript declaration text.  Each
is modelled as its per-field fragment list plus the assembled string, so
theorems can speak about individual fields the way the templates build
them. -/

/-- One field of the per-class properties declaration (utils.ts lines
93–95): `${camelCase(prop.name)}?: ${resolveTypescriptType(prop.type)}`
— every property field is optional and carries no trailing semicolon. -/
def classPropertyField (p : PropertyDefinition) : Except GenError String :=
  match resolveTypescriptType p.type with
  | .error e => .error e
  | .ok ts => .ok (camelCase p.name ++ "?: " ++ ts)

/-- `printClassPropertyInterface(clazz)` (lines 90–98): the properties
declaration, fields joined by newline; a class without `properties` uses
the empty list (`clazz.properties || []`). -/
def printClassPropertyInterface (c : ClassDefinition) : Except GenError String :=
  match mapThrow classPropertyField (c.properties.getD []) with
  | .error e => .error e
  | .ok fields =>
    .ok ("\n  export interface " ++ pascalCase c.name ++ "Properties \x7b\n    "
      ++ String.intercalate "\n" fields ++ "\n  \x7d\n")

/-- One field of the per-method `...Args` declaration (utils.ts lines
110–119): presence of a default value makes the field optional and
prefixes a `/** Default ... */` comment with the stringified literal. -/
def methodArgField (spec : Spec) (a : ArgumentDefinition) : Except GenError String :=
  let isOptional := a.defaultValue.isSome
  let comment :=
    match a.defaultValue with
    | some d => "/** Default " ++ jsonStringify d ++ " */"
    | none => ""
  match resolveType spec a with
  | .error e => .error e
  | .ok t =>
    match resolveTypescriptType t with
    | .error e => .error e
    | .ok ts =>
      .ok (comment ++ camelCase a.name ++ (if isOptional then "?" else "") ++ ": " ++ ts ++ ";")

/-- One field of the per-method full-value declaration (utils.ts lines
132–135): same name and storage type, always mandatory. -/
def methodValueField (spec : Spec) (a : ArgumentDefinition) : Except GenError String :=
  match resolveType spec a with
  | .error e => .error e
  | .ok t =>
    match resolveTypescriptType t with
    | .error e => .error e
    | .ok ts => .ok (camelCase a.name ++ ": " ++ ts ++ ";")

/-- `printMethodArgsInterface` (lines 100–122), reduced to its field
list; the surrounding interface header only interpolates names. -/
def methodArgsInterfaceFields (spec : Spec) (m : MethodDefinition) : Except GenError (List String) :=
  mapThrow (methodArgField spec) m.arguments

/-- `printMethodValueInterface` (lines 124–138), reduced to its field
list. -/
def methodValueInterfaceFields (spec : Spec) (m : MethodDefinition) : Except GenError (List String) :=
  mapThrow (methodValueField spec) m.arguments

/-! ## The external field codec, modelled from the spec

Modelled from the spec: the low-level binary field codec (`enc.*`) the
generated code calls is not under `src/` — spec.md §1 lists it as an
external collaborator and §6 gives its contract: writer-side primitives
for a fixed-width short unsigned integer, a 64-bit unsigned integer, an
ordered list of (primitive-type, value) pairs, and an ordered list of
optional such pairs with presence tracking; reader-side mirrors operate
over a cursor and return positionally-ordered values typed per the
requested primitive-type list.  The byte stream is abstracted into a
token stream: each writer primitive appends one token, each reader
primitive consumes one, and the field-list readers check that the
requested type list matches the written one (a mismatch would misparse
real bytes). -/

/-- One abstract wire token. -/
inductive Token where
  | shortUint (n : Nat)
  | longLongUint (n : Nat)
  | fields (fs : List (String × FieldValue))
  | optFields (fs : List (String × Option FieldValue))
deriving DecidableEq, Repr

/-- Modelled from the spec: `enc.encodeShortUint`, a fixed-width 16-bit
write (values are reduced modulo 2^16 as a `DataView` write would). -/
def encodeShortUint (n : Nat) : List Token :=
  [Token.shortUint (n % 65536)]

/-- Modelled from the spec: `enc.encodeLongLongUint`, a 64-bit write. -/
def encodeLongLongUint (n : Nat) : List Token :=
  [Token.longLongUint (n % 18446744073709551616)]

/-- Modelled from the spec: `enc.encodeFields`, one block holding the
ordered (primitive-type, value) pairs. -/
def encodeFields (fs : List (String × FieldValue)) : List Token :=
  [Token.fields fs]

/-- Modelled from the spec: `enc.encodeOptionalFields`, one block
holding the ordered optional pairs with presence tracking. -/
def encodeOptionalFields (fs : List (String × Option FieldValue)) : List Token :=
  [Token.optFields fs]

/-- Modelled from the spec: `enc.decodeShortUint` reads one short-uint
token from the cursor. -/
def decodeShortUint : List Token → Except String (Nat × List Token)
  | Token.shortUint n :: rest => .ok (n, rest)
  | _ => .error "decodeShortUint: short uint expected"

/-- Modelled from the spec: `enc.decodeLongLongUint` reads one 64-bit
token from the cursor. -/
def decodeLongLongUint : List Token → Except String (Nat × List Token)
  | Token.longLongUint n :: rest => .ok (n, rest)
  | _ => .error "decodeLongLongUint: long long uint expected"

/-- Modelled from the spec: `enc.decodeFields` reads the field block and
returns the values positionally, typed per the requested primitive-type
list; a type-list mismatch is a parse failure. -/
def decodeFields (toks : List Token) (types : List String) :
    Except String (List FieldValue × List Token) :=
  match toks with
  | Token.fields fs :: rest =>
    if fs.map Prod.fst = types then .ok (fs.map Prod.snd, rest)
    else .error "decodeFields: field types do not match"
  | _ => .error "decodeFields: field block expected"

/-- Modelled from the spec: `enc.decodeOptionalFields`, the mirror of
`encodeOptionalFields`; absent values stay absent. -/
def decodeOptionalFields (toks : List Token) (types : List String) :
    Except String (List (Option FieldValue) × List Token) :=
  match toks with
  | Token.optFields fs :: rest =>
    if fs.map Prod.fst = types then .ok (fs.map Prod.snd, rest)
    else .error "decodeOptionalFields: field types do not match"
  | _ => .error "decodeOptionalFields: optional field block expected"

/-! ## Semantics of the generated method codec

Each `print...Function` template fully determines the body of the
function it emits for a given schema entry, so that body is translated
here into a Lean function over the token stream.  TypeScript `as` casts
in the templates are type-level only and have no runtime effect. -/

/-- A `Receive...` value (utils.ts lines 140–153): decoded class id,
method id and the named argument record, represented as the association
list the generated object literal builds in declaration order. -/
structure ReceivedMethod where
  classId : Nat
  methodId : Nat
  args : List (String × FieldValue)
deriving DecidableEq, Repr

/-- A `...Header` value (utils.ts lines 161–171): class id, body size
and the properties record (absent optional properties stay absent). -/
structure HeaderValue where
  classId : Nat
  size : Nat
  props : List (String × Option FieldValue)
deriving DecidableEq, Repr

/-- One entry of the array the emitted encode function passes to
`enc.encodeFields` (utils.ts lines 205–214): the argument's resolved
primitive type together with `args.<name>` if defined, else the emitted
default literal (only arguments carrying a default get the fallback
ternary); an undefined value for a default-less argument has no meaning
on the wire.  `getDefaultValue` resolves the storage type to decide the
`BigInt(...)` wrapping. -/
def encodeMethodEntry (spec : Spec) (a : ArgumentDefinition)
    (args : String → Option FieldValue) : Except String (String × FieldValue) :=
  match resolveType spec a with
  | .error e => .error e.message
  | .ok ty =>
    match a.defaultValue with
    | some d =>
      match args (camelCase a.name) with
      | some v => .ok (ty, v)
      | none =>
        match resolveTypescriptType ty with
        | .error e => .error e.message
        | .ok ts =>
          match defaultAsFieldValue ts d with
          | .error e => .error e
          | .ok v => .ok (ty, v)
    | none =>
      match args (camelCase a.name) with
      | some v => .ok (ty, v)
      | none => .error ("undefined value for argument " ++ a.name)

/-- Semantics of the function emitted by `printEncodeMethodFunction`
(utils.ts lines 193–219): write the class id and method id as short
uints, then the ordered field list in a single `enc.encodeFields`
call. -/
def encodeMethodSem (spec : Spec) (c : ClassDefinition) (m : MethodDefinition)
    (args : String → Option FieldValue) : Except String (List Token) :=
  match mapThrow (fun a => encodeMethodEntry spec a args) m.arguments with
  | .error e => .error e
  | .ok entries =>
    .ok (encodeShortUint c.id ++ encodeShortUint m.id ++ encodeFields entries)

/-- The ordered primitive-type list interpolated into the emitted encode
function's `enc.encodeFields` entries (utils.ts lines 205–214: the
`type: "..."` field of each entry, one per argument in declaration
order). -/
def encodeMethodFieldTypes (spec : Spec) (m : MethodDefinition) : Except GenError (List String) :=
  mapThrow (fun arg => resolveType spec arg) m.arguments

/-- The ordered primitive-type list the emitted decode function passes
to `enc.decodeFields` (utils.ts lines 230–232, one literal per argument
in declaration order). -/
def decodeMethodFieldTypes (spec : Spec) (m : MethodDefinition) : Except GenError (List String) :=
  mapThrow (fun a => resolveType spec a) m.arguments

/-- Semantics of the per-method function emitted by
`printDecodeMethodFunction` (utils.ts lines 221–240): read the fields
with the interpolated type list, then zip the positional results back
onto the camel-cased argument names in declaration order.  The type
list is baked into the generated source as literals; re-deriving it here
can only fail on a schema for which generation itself would have
failed. -/
def decodeMethodArgs (spec : Spec) (m : MethodDefinition) (r : List Token) :
    Except String (List (String × FieldValue) × List Token) :=
  match mapThrow (fun a => resolveType spec a) m.arguments with
  | .error e => .error e.message
  | .ok types =>
    match decodeFields r types with
    | .error e => .error e
    | .ok (vals, rest) =>
      .ok ((m.arguments.map (fun a => camelCase a.name)).zip vals, rest)

/-- Semantics of `decodeMethod` as emitted by `printMethodDecoder`
(utils.ts lines 242–268): read class id and method id, switch on the
class id over the schema's classes in order, then on the method id over
that class's methods in order; unmatched ids throw the interpolated
`Unknown method .../Unknown class ...` errors. -/
def decodeMethodSem (spec : Spec) (data : List Token) : Except String ReceivedMethod :=
  match decodeShortUint data with
  | .error e => .error e
  | .ok (classId, r) =>
    match decodeShortUint r with
    | .error e => .error e
    | .ok (methodId, r) =>
      match spec.classes.find? (fun c => c.id == classId) with
      | none => .error ("Unknown class " ++ toString classId)
      | some c =>
        match c.methods.find? (fun mm => mm.id == methodId) with
        | none =>
          .error ("Unknown method " ++ toString methodId ++ " for class '" ++ c.name ++ "'")
        | some mm =>
          match decodeMethodArgs spec mm r with
          | .error e => .error e
          | .ok (argsList, _) => .ok ⟨classId, methodId, argsList⟩

/-! ## Semantics of the generated header codec -/

/-- Semantics of the function emitted by `printEncodeHeaderFunction`
(utils.ts lines 270–290): write the class id, a zero weight slot, the
64-bit body size, then the optional property fields (raw schema property
types, values straight off the properties record — absent stays absent).
The emission is total: no resolver runs in this template. -/
def encodeHeaderSem (c : ClassDefinition) (size : Nat)
    (props : String → Option FieldValue) : List Token :=
  encodeShortUint c.id ++ encodeShortUint 0 ++ encodeLongLongUint size ++
    encodeOptionalFields
      ((c.properties.getD []).map (fun p => (p.type, props (camelCase p.name))))

/-- The storage-type casts interpolated by `printDecodeHeaderFunction`
(utils.ts line 304): the only fallible part of that emitter. -/
def decodeHeaderFieldCasts (c : ClassDefinition) : Except GenError (List String) :=
  mapThrow (fun p => resolveTypescriptType p.type) (c.properties.getD [])

/-- Semantics of the per-class function emitted by
`printDecodeHeaderFunction` (utils.ts lines 292–310): read and discard
the weight short uint, read the 64-bit size, read the optional fields
with the class's raw property-type list, and rebuild the properties
record on the camel-cased property names; the class id is a literal. -/
def decodeClassHeaderSem (c : ClassDefinition) (r : List Token) : Except String HeaderValue :=
  match decodeShortUint r with
  | .error e => .error e
  | .ok (_weight, r) =>
    match decodeLongLongUint r with
    | .error e => .error e
    | .ok (size, r) =>
      match decodeOptionalFields r ((c.properties.getD []).map (fun p => p.type)) with
      | .error e => .error e
      | .ok (fields, _) =>
        .ok ⟨c.id, size, ((c.properties.getD []).map (fun p => camelCase p.name)).zip fields⟩

/-- Semantics of `decodeHeader` as emitted by `printHeaderDecoder`
(utils.ts lines 312–328): read the class id, switch over the schema's
classes in order to the matching per-class header decoder; an unmatched
class id throws `Unknown class ...`. -/
def decodeHeaderSem (spec : Spec) (data : List Token) : Except String HeaderValue :=
  match decodeShortUint data with
  | .error e => .error e
  | .ok (classId, r) =>
    match spec.classes.find? (fun c => c.id == classId) with
    | none => .error ("Unknown class " ++ toString classId)
    | some c => decodeClassHeaderSem c r

/-! ## A concrete schema for witnesses

A small schema in the shape of the AMQP document the generator consumes:
one class with a method taking a plain argument and a defaulted
domain-typed argument, one class with header properties, one class
without properties. -/

/-- Concrete argument with an explicit type and no default. -/
def demoQueueArg : ArgumentDefinition :=
  { type := some "shortstr", domain := none, name := "queue", defaultValue := none }

/-- Concrete argument typed through a domain, carrying a default. -/
def demoPrefetchArg : ArgumentDefinition :=
  { type := none, domain := some "prefetch-count", name := "prefetch-count"
    defaultValue := some (.num 0) }

/-- Concrete method with the two demo arguments. -/
def demoGet : MethodDefinition :=
  { id := 40, arguments := [demoQueueArg, demoPrefetchArg], synchronous := true
    response := none, name := "get", content := false }

/-- Concrete class owning `demoGet`, without header properties. -/
def demoConnection : ClassDefinition :=
  { id := 10, methods := [demoGet], name := "connection", properties := none }

/-- Concrete class with two header properties. -/
def demoBasic : ClassDefinition :=
  { id := 60, methods := [], name := "basic"
    properties := some [{ type := "shortstr", name := "content-type" },
                        { type := "octet", name := "delivery-mode" }] }

/-- Concrete schema holding the demo classes and a domain table. -/
def demoSpec : Spec :=
  { classes := [demoConnection, demoBasic]
    domains := [("prefetch-count", "short"), ("bit", "bit")]
    constants := [] }

/-- Concrete args record: `queue` given, defaulted `prefetchCount`
omitted. -/
def demoArgs : String → Option FieldValue :=
  fun s => if s = "queue" then some (.vString "q") else none

/-! ## Helper lemmas -/

/-- Pointwise success of the callback makes `mapThrow` succeed with the
mapped list. -/
theorem mapThrow_ok {α β ε : Type} {f : α → Except ε β} {g : α → β} :
    ∀ l : List α, (∀ a ∈ l, f a = .ok (g a)) → mapThrow f l = .ok (l.map g) := by
  intro l h
  induction l with
  | nil => rfl
  | cons a l ih =>
    have ha := h a (List.mem_cons_self a l)
    have hl := ih fun x hx => h x (List.mem_cons_of_mem a hx)
    simp [mapThrow, ha, hl]

/-- The primitive type recorded in a successful `encodeMethodEntry` is
the argument's resolved type. -/
theorem encodeMethodEntry_fst {spec : Spec} {a : ArgumentDefinition}
    {args : String → Option FieldValue} {ty : String} {v : FieldValue}
    (h : encodeMethodEntry spec a args = .ok (ty, v)) :
    resolveType spec a = .ok ty := by
  unfold encodeMethodEntry at h
  repeat' split at h
  all_goals simp_all

/-- A successful run of the emitted field-entry list determines the
encode side's primitive-type list as the entries' first components. -/
theorem mapThrow_entry_types {spec : Spec} {args : String → Option FieldValue} :
    ∀ (l : List ArgumentDefinition) (entries : List (String × FieldValue)),
      mapThrow (fun a => encodeMethodEntry spec a args) l = .ok entries →
      mapThrow (fun a => resolveType spec a) l = .ok (entries.map Prod.fst) := by
  intro l
  induction l with
  | nil =>
    intro entries h
    simp only [mapThrow] at h ⊢
    cases h
    rfl
  | cons a l ih =>
    intro entries h
    simp only [mapThrow] at h
    cases he : encodeMethodEntry spec a args with
    | error e => rw [he] at h; exact absurd h (by simp)
    | ok b =>
      rw [he] at h
      cases hrest : mapThrow (fun x => encodeMethodEntry spec x args) l with
      | error e => rw [hrest] at h; exact absurd h (by simp)
      | ok bs =>
        rw [hrest] at h
        cases h
        obtain ⟨ty, v⟩ := b
        simp only [mapThrow, encodeMethodEntry_fst he, ih bs hrest, List.map_cons]

/-! ## Claims -/

/-- C2: for every schema and method, the primitive-type list the emitted
encode function writes into its `enc.encodeFields` entries is identical,
position by position, to the list the emitted decode function passes to
`enc.decodeFields`; both are `resolveType` mapped over the method's
arguments in declaration order, and the entries actually built by a run
of the encode semantics carry exactly that list. -/
theorem encode_decode_type_lists_agree (spec : Spec) (m : MethodDefinition) :
    encodeMethodFieldTypes spec m = decodeMethodFieldTypes spec m ∧
    encodeMethodFieldTypes spec m = mapThrow (fun a => resolveType spec a) m.arguments ∧
    (∀ (args : String → Option FieldValue) (entries : List (String × FieldValue)),
      mapThrow (fun a => encodeMethodEntry spec a args) m.arguments = .ok entries →
      encodeMethodFieldTypes spec m = .ok (entries.map Prod.fst)) := by
  refine ⟨rfl, rfl, ?_⟩
  intro args entries h
  exact mapThrow_entry_types m.arguments entries h

/-- Witness for C2 at the demo method: the encode run's entry types are
the decode side's interpolated type list. -/
theorem encode_decode_type_lists_agree_witness :
    encodeMethodFieldTypes demoSpec demoGet = .ok ["shortstr", "short"] ∧
    decodeMethodFieldTypes demoSpec demoGet = .ok ["shortstr", "short"] := by
  have h := (encode_decode_type_lists_agree demoSpec demoGet).2.2 demoArgs
    [("shortstr", .vString "q"), ("short", .vNumber 0)] (by decide)
  have h2 := (encode_decode_type_lists_agree demoSpec demoGet).1
  exact ⟨h, h2 ▸ h⟩

/-- C4: `resolveType` returns the explicit type when present (even if a
domain is also present), else the primitive mapped to the argument's
domain by the first matching domain-table entry; an argument with
neither fails with `UnresolvedType`, and a domain reference missing from
the table fails with `UnknownDomain`. -/
theorem resolveType_cases (spec : Spec) (a : ArgumentDefinition) :
    (∀ ty, a.type = some ty → resolveType spec a = .ok ty) ∧
    (∀ d p, a.type = none → a.domain = some d →
      spec.domains.find? (fun q => q.1 == d) = some p →
      resolveType spec a = .ok p.2) ∧
    (a.type = none → a.domain = none →
      resolveType spec a = .error GenError.unresolvedType) ∧
    (∀ d, a.type = none → a.domain = some d →
      spec.domains.find? (fun q => q.1 == d) = none →
      resolveType spec a = .error (GenError.unknownDomain d)) := by
  refine ⟨?_, ?_, ?_, ?_⟩
  · intro ty ht; simp [resolveType, ht]
  · intro d p ht hd hf; simp [resolveType, ht, hd, hf]
  · intro ht hd; simp [resolveType, ht, hd]
  · intro d ht hd hf; simp [resolveType, ht, hd, hf]

/-- Witness for C4: all four branches at concrete arguments over the
demo domain table. -/
theorem resolveType_cases_witness :
    resolveType demoSpec demoQueueArg = .ok "shortstr" ∧
    resolveType demoSpec demoPrefetchArg = .ok "short" ∧
    resolveType demoSpec { type := some "octet", domain := some "bit", name := "x"
                           defaultValue := none } = .ok "octet" ∧
    resolveType demoSpec { type := none, domain := none, name := "x"
                           defaultValue := none } = .error GenError.unresolvedType ∧
    resolveType demoSpec { type := none, domain := some "ghost", name := "x"
                           defaultValue := none } = .error (GenError.unknownDomain "ghost") := by
  refine ⟨(resolveType_cases demoSpec demoQueueArg).1 "shortstr" rfl,
    (resolveType_cases demoSpec demoPrefetchArg).2.1 "prefetch-count"
      ("prefetch-count", "short") rfl rfl (by decide),
    (resolveType_cases demoSpec _).1 "octet" rfl,
    (resolveType_cases demoSpec _).2.2.1 rfl rfl,
    (resolveType_cases demoSpec _).2.2.2 "ghost" rfl rfl (by decide)⟩

/-- C5: in the emitted `...Args` declaration a field is optional exactly
when the argument carries a default value, an optional field is
annotated with the stringified default literal, and the emitted full
value declaration repeats the same name and storage type with the field
mandatory. -/
theorem args_optional_iff_default (spec : Spec) (a : ArgumentDefinition)
    (t ts : String) (h1 : resolveType spec a = .ok t)
    (h2 : resolveTypescriptType t = .ok ts) :
    (∀ d, a.defaultValue = some d →
      methodArgField spec a =
        .ok ("/** Default " ++ jsonStringify d ++ " */" ++ camelCase a.name ++ "?" ++ ": " ++ ts ++ ";")) ∧
    (a.defaultValue = none →
      methodArgField spec a = .ok (camelCase a.name ++ ": " ++ ts ++ ";")) ∧
    methodValueField spec a = .ok (camelCase a.name ++ ": " ++ ts ++ ";") := by
  refine ⟨?_, ?_, ?_⟩
  · intro d hd
    simp [methodArgField, h1, h2, hd]
  · intro hd
    simp [methodArgField, h1, h2, hd]
  · simp [methodValueField, h1, h2]

/-- Witness for C5 at the demo arguments: the defaulted argument is
optional and annotated, the plain one mandatory, and both full-value
fields mandatory. -/
theorem args_optional_iff_default_witness :
    methodArgField demoSpec demoPrefetchArg = .ok "/** Default 0 */prefetchCount?: number;" ∧
    methodArgField demoSpec demoQueueArg = .ok "queue: string;" ∧
    methodValueField demoSpec demoPrefetchArg = .ok "prefetchCount: number;" := by
  have hp := args_optional_iff_default demoSpec demoPrefetchArg "short" "number" rfl rfl
  have hq := args_optional_iff_default demoSpec demoQueueArg "shortstr" "string" rfl rfl
  exact ⟨hp.1 (.num 0) rfl, hq.2.1 rfl, hp.2.2⟩

/-- C6: the storage-type mapping sends `longlong` and `timestamp` to
`bigint`, `bit` to `boolean`, `shortstr` and `longstr` to `string`,
`table` to the string-keyed record type, and `short`, `long`, `octet`
to `number`; every name outside that closed set fails with
`UnknownPrimitiveType`. -/
theorem resolveTypescriptType_spec (t : String) :
    resolveTypescriptType "longlong" = .ok "bigint" ∧
    resolveTypescriptType "timestamp" = .ok "bigint" ∧
    resolveTypescriptType "bit" = .ok "boolean" ∧
    resolveTypescriptType "shortstr" = .ok "string" ∧
    resolveTypescriptType "longstr" = .ok "string" ∧
    resolveTypescriptType "table" = .ok "Record<string, unknown>" ∧
    resolveTypescriptType "short" = .ok "number" ∧
    resolveTypescriptType "long" = .ok "number" ∧
    resolveTypescriptType "octet" = .ok "number" ∧
    (t ∉ ["longlong", "long", "short", "octet", "bit", "shortstr", "longstr",
          "table", "timestamp"] →
      resolveTypescriptType t = .error (GenError.unknownPrimitiveType t)) := by
  refine ⟨rfl, rfl, rfl, rfl, rfl, rfl, rfl, rfl, rfl, ?_⟩
  intro h
  simp only [List.mem_cons, List.not_mem_nil, or_false, not_or] at h
  obtain ⟨h1, h2, h3, h4, h5, h6, h7, h8, h9⟩ := h
  unfold resolveTypescriptType
  split <;> simp_all

/-- Witness for C6: a name outside the closed set fails. -/
theorem resolveTypescriptType_spec_witness :
    resolveTypescriptType "float" = .error (GenError.unknownPrimitiveType "float") ∧
    resolveTypescriptType "longlong" = .ok "bigint" :=
  ⟨(resolveTypescriptType_spec "float").2.2.2.2.2.2.2.2.2 (by decide),
   (resolveTypescriptType_spec "float").1⟩

/-- C7 counterexample: the constant form does not replace a dot by an
underscore — `constantName` only substitutes hyphens before upper-casing,
so an identifier containing a dot keeps the dot. -/
theorem constantName_keeps_dot :
    constantName "frame.min" = "FRAME.MIN" ∧ constantName "frame.min" ≠ "FRAME_MIN" := by
  decide

/-- C7 as amended: splitting on hyphens or dots, the lower-camel form is
the first segment followed by the later segments capitalized, and the
upper-camel form capitalizes every segment; the constant form replaces
each hyphen (and only hyphens) by an underscore and upper-cases the
result, so `frame-min-size` still yields `FRAME_MIN_SIZE` while a dot
survives unchanged. -/
theorem name_canonical_forms (name : String) (f : List Char) (r : List (List Char))
    (hs : splitOnDelims name.data = f :: r) :
    camelCase name = String.mk f ++ String.join ((r.map String.mk).map capitalize) ∧
    pascalCase name = String.join (((f :: r).map String.mk).map capitalize) ∧
    constantName name =
      String.mk ((name.data.map (fun c => if c = '-' then '_' else c)).map Char.toUpper) ∧
    camelCase "frame-min-size" = "frameMinSize" ∧
    pascalCase "frame-min-size" = "FrameMinSize" ∧
    constantName "frame-min-size" = "FRAME_MIN_SIZE" ∧
    (∀ nm : String, '.' ∈ nm.data → '.' ∈ (constantName nm).data) := by
  refine ⟨?_, ?_, rfl, by decide, by decide, by decide, ?_⟩
  · simp [camelCase, hs]
  · simp [pascalCase, hs]
  · intro nm hnm
    have : Char.toUpper (if ('.' : Char) = '-' then '_' else '.') = '.' := by decide
    exact this ▸ List.mem_map_of_mem _ (List.mem_map_of_mem _ hnm)

/-- Witness for C7 as amended, at a concrete identifier containing both
delimiters. -/
theorem name_canonical_forms_witness :
    camelCase "a-b.c" = "aBC" ∧ pascalCase "a-b.c" = "ABC" ∧
    '.' ∈ (constantName "basic.qos").data := by
  have h := name_canonical_forms "a-b.c" ['a'] [['b'], ['c']] (by decide)
  exact ⟨h.1, h.2.1, h.2.2.2.2.2.2 "basic.qos" (by decide)⟩

/-- C9: the emitted per-class header decoder reads the 16-bit weight
slot and discards it unchecked — two token streams that differ only in
the weight decode to identical header values — while the emitted header
encoder always writes a zero there. -/
theorem header_weight_ignored (spec : Spec) (cid w₁ w₂ : Nat) (rest : List Token) :
    decodeHeaderSem spec (Token.shortUint cid :: Token.shortUint w₁ :: rest) =
      decodeHeaderSem spec (Token.shortUint cid :: Token.shortUint w₂ :: rest) ∧
    ∀ (c : ClassDefinition) (size : Nat) (props : String → Option FieldValue),
      (encodeHeaderSem c size props).get? 1 = some (Token.shortUint 0) := by
  constructor
  · simp only [decodeHeaderSem, decodeShortUint]
    cases spec.classes.find? (fun c => c.id == cid) with
    | none => rfl
    | some c => simp [decodeClassHeaderSem, decodeShortUint]
  · intro c size props
    simp [encodeHeaderSem, encodeShortUint, encodeLongLongUint, encodeOptionalFields]

/-- C3: the emitted method dispatcher, on a known class id with a method
id matching none of that class's methods, throws the unknown-method
error naming the offending method id and the matched class; on a class
id matching no class it throws the unknown-class error naming that id,
and the emitted header dispatcher does the same. -/
theorem dispatch_unknown_ids (spec : Spec) (cid mid : Nat) (rest : List Token) :
    (∀ c, spec.classes.find? (fun k => k.id == cid) = some c →
      c.methods.find? (fun k => k.id == mid) = none →
      decodeMethodSem spec (Token.shortUint cid :: Token.shortUint mid :: rest) =
        .error ("Unknown method " ++ toString mid ++ " for class '" ++ c.name ++ "'")) ∧
    (spec.classes.find? (fun k => k.id == cid) = none →
      decodeMethodSem spec (Token.shortUint cid :: Token.shortUint mid :: rest) =
        .error ("Unknown class " ++ toString cid)) ∧
    (spec.classes.find? (fun k => k.id == cid) = none →
      decodeHeaderSem spec (Token.shortUint cid :: rest) =
        .error ("Unknown class " ++ toString cid)) := by
  refine ⟨?_, ?_, ?_⟩
  · intro c hc hm
    simp [decodeMethodSem, decodeShortUint, hc, hm]
  · intro hc
    simp [decodeMethodSem, decodeShortUint, hc]
  · intro hc
    simp [decodeHeaderSem, decodeShortUint, hc]

/-- Witness for C3: unknown method 99 on the demo class with id 10, and
unknown class 77, through both dispatchers. -/
theorem dispatch_unknown_ids_witness :
    decodeMethodSem demoSpec [Token.shortUint 10, Token.shortUint 99] =
      .error "Unknown method 99 for class 'connection'" ∧
    decodeMethodSem demoSpec [Token.shortUint 77, Token.shortUint 40] =
      .error "Unknown class 77" ∧
    decodeHeaderSem demoSpec [Token.shortUint 77] =
      .error "Unknown class 77" := by
  refine ⟨?_, ?_, ?_⟩
  · rw [(dispatch_unknown_ids demoSpec 10 99 []).1 demoConnection (by decide) (by decide)]
    decide
  · rw [(dispatch_unknown_ids demoSpec 77 40 []).2.1 (by decide)]
    decide
  · rw [(dispatch_unknown_ids demoSpec 77 40 []).2.2 (by decide)]
    decide

/-- C8: encoding a header from a body size and a properties record, then
running the emitted header dispatcher, reproduces the class id, the same
size and the same properties record, absent optional properties staying
absent. -/
theorem header_roundtrip (spec : Spec) (c : ClassDefinition) (size : Nat)
    (props : String → Option FieldValue)
    (hc : spec.classes.find? (fun k => k.id == c.id) = some c)
    (hcid : c.id < 65536) (hsize : size < 18446744073709551616) :
    decodeHeaderSem spec (encodeHeaderSem c size props) =
      .ok ⟨c.id, size,
        (c.properties.getD []).map (fun p => (camelCase p.name, props (camelCase p.name)))⟩ := by
  unfold encodeHeaderSem encodeShortUint encodeLongLongUint encodeOptionalFields
  rw [Nat.mod_eq_of_lt hcid, Nat.mod_eq_of_lt hsize]
  simp [decodeHeaderSem, decodeShortUint, hc, decodeClassHeaderSem, decodeLongLongUint,
    decodeOptionalFields, List.map_map, Function.comp, List.zip_map']

/-- Witness for C8: round trip of a demo header with one present and one
absent property. -/
theorem header_roundtrip_witness :
    decodeHeaderSem demoSpec
        (encodeHeaderSem demoBasic 5
          (fun s => if s = "contentType" then some (.vString "text/plain") else none)) =
      .ok ⟨60, 5, [("contentType", some (.vString "text/plain")), ("deliveryMode", none)]⟩ := by
  rw [header_roundtrip demoSpec demoBasic 5
    (fun s => if s = "contentType" then some (.vString "text/plain") else none)
    (by decide) (by decide) (by decide)]
  decide

/-- C10: a class whose `properties` field is absent is handled by all
three per-class header emitters as an empty property list: the emitted
properties declaration has an empty field block, the emitted header
encoder passes an empty optional-field list to the codec, the decode
emitter's only fallible part (the storage-type casts) succeeds with an
empty list, and the emitted header decoder builds an empty properties
record. -/
theorem headerless_class_emitters (c : ClassDefinition) (h : c.properties = none) :
    printClassPropertyInterface c =
      .ok ("\n  export interface " ++ pascalCase c.name ++ "Properties \x7b\n    "
        ++ String.intercalate "\n" ([] : List String) ++ "\n  \x7d\n") ∧
    (∀ (size : Nat) (props : String → Option FieldValue),
      encodeHeaderSem c size props =
        [Token.shortUint (c.id % 65536), Token.shortUint 0,
         Token.longLongUint (size % 18446744073709551616), Token.optFields []]) ∧
    decodeHeaderFieldCasts c = .ok [] ∧
    (∀ (w s : Nat) (rest : List Token),
      decodeClassHeaderSem c
          (Token.shortUint w :: Token.longLongUint s :: Token.optFields [] :: rest) =
        .ok ⟨c.id, s, []⟩) := by
  refine ⟨?_, ?_, ?_, ?_⟩
  · simp [printClassPropertyInterface, h, mapThrow]
  · intro size props
    simp [encodeHeaderSem, h, encodeShortUint, encodeLongLongUint, encodeOptionalFields]
  · simp [decodeHeaderFieldCasts, h, mapThrow]
  · intro w s rest
    simp [decodeClassHeaderSem, h, decodeShortUint, decodeLongLongUint, decodeOptionalFields]

/-- Witness for C10 at the demo class without properties. -/
theorem headerless_class_emitters_witness :
    printClassPropertyInterface demoConnection =
      .ok "\n  export interface ConnectionProperties \x7b\n    \n  \x7d\n" ∧
    encodeHeaderSem demoConnection 7 (fun _ => none) =
      [Token.shortUint 10, Token.shortUint 0, Token.longLongUint 7, Token.optFields []] ∧
    decodeHeaderFieldCasts demoConnection = .ok [] ∧
    decodeClassHeaderSem demoConnection
        [Token.shortUint 3, Token.longLongUint 7, Token.optFields []] =
      .ok ⟨10, 7, []⟩ := by
  have h := headerless_class_emitters demoConnection rfl
  refine ⟨?_, ?_, h.2.2.1, ?_⟩
  · rw [h.1]; decide
  · rw [h.2.1 7 (fun _ => none)]; decide
  · rw [h.2.2.2 3 7 []]; decide

/-- C1: encoding a method value (present fields kept, absent defaulted
fields replaced by their declared default literal) and feeding the bytes
to the emitted dispatcher yields the class's id, the method's id, and
the argument record rebuilt field by field — the input itself for a
fully-specified instance, and the input completed with declared defaults
for a minimal one. -/
theorem method_roundtrip (spec : Spec) (c : ClassDefinition) (m : MethodDefinition)
    (args : String → Option FieldValue)
    (t : ArgumentDefinition → String) (w : ArgumentDefinition → FieldValue)
    (hc : spec.classes.find? (fun k => k.id == c.id) = some c)
    (hm : c.methods.find? (fun k => k.id == m.id) = some m)
    (hcid : c.id < 65536) (hmid : m.id < 65536)
    (ha : ∀ a ∈ m.arguments, resolveType spec a = .ok (t a) ∧
      ((∃ v, args (camelCase a.name) = some v ∧ w a = v) ∨
       (args (camelCase a.name) = none ∧ ∃ d ts, a.defaultValue = some d ∧
         resolveTypescriptType (t a) = .ok ts ∧ defaultAsFieldValue ts d = .ok (w a)))) :
    encodeMethodSem spec c m args =
      .ok [Token.shortUint c.id, Token.shortUint m.id,
           Token.fields (m.arguments.map (fun a => (t a, w a)))] ∧
    decodeMethodSem spec
        [Token.shortUint c.id, Token.shortUint m.id,
         Token.fields (m.arguments.map (fun a => (t a, w a)))] =
      .ok ⟨c.id, m.id, m.arguments.map (fun a => (camelCase a.name, w a))⟩ := by
  have hentry : ∀ a ∈ m.arguments, encodeMethodEntry spec a args = .ok (t a, w a) := by
    intro a hmem
    obtain ⟨hrt, hval⟩ := ha a hmem
    rcases hval with ⟨v, hv, hw⟩ | ⟨hnone, d, ts, hd, hts, hdef⟩
    · subst hw
      cases hdv : a.defaultValue <;> simp [encodeMethodEntry, hrt, hv, hdv]
    · simp [encodeMethodEntry, hrt, hnone, hd, hts, hdef]
  have henc := mapThrow_ok (f := fun a => encodeMethodEntry spec a args)
    (g := fun a => (t a, w a)) m.arguments hentry
  have htypes := mapThrow_ok (f := fun a => resolveType spec a) (g := t) m.arguments
    (fun a hmem => (ha a hmem).1)
  constructor
  · simp [encodeMethodSem, henc, encodeShortUint, encodeFields,
      Nat.mod_eq_of_lt hcid, Nat.mod_eq_of_lt hmid]
  · simp [decodeMethodSem, decodeShortUint, hc, hm, decodeMethodArgs, htypes,
      decodeFields, List.map_map, Function.comp, List.zip_map']

/-- Witness for C1: the demo method round-trips with `queue` supplied
and the defaulted `prefetch-count` omitted, the decoded record carrying
the declared default. -/
theorem method_roundtrip_witness :
    encodeMethodSem demoSpec demoConnection demoGet demoArgs =
      .ok [Token.shortUint 10, Token.shortUint 40,
           Token.fields [("shortstr", .vString "q"), ("short", .vNumber 0)]] ∧
    decodeMethodSem demoSpec
        [Token.shortUint 10, Token.shortUint 40,
         Token.fields [("shortstr", .vString "q"), ("short", .vNumber 0)]] =
      .ok ⟨10, 40, [("queue", .vString "q"), ("prefetchCount", .vNumber 0)]⟩ := by
  have h := method_roundtrip demoSpec demoConnection demoGet demoArgs
    (fun a => if a.name = "queue" then "shortstr" else "short")
    (fun a => if a.name = "queue" then .vString "q" else .vNumber 0)
    (by decide) (by decide) (by decide) (by decide) ?_
  · exact h
  · intro a hmem
    have : a = demoQueueArg ∨ a = demoPrefetchArg := by
      simpa [demoGet] using hmem
    rcases this with rfl | rfl
    · exact ⟨by decide, Or.inl ⟨.vString "q", by decide, by decide⟩⟩
    · exact ⟨by decide, Or.inr ⟨by decide, .num 0, "number", by decide, by decide, by decide⟩⟩

end Amqp

